import Mathlib

/-!
Verification of the cluster-registration script `src/work in progress/API_req.py`.

The script is a single linear sequence:
  1. `cluster_uid = str(uuid.uuid4())`
  2. `cluster_definition = {"cluster": {...seven fields..., "uid": cluster_uid}}`
  3. `json_data = json.dumps(cluster_definition)`
  4. `print(json_data)`
  5. `response = requests.post(url, json=cluster_definition)` with
     `url = "http://your.api.endpoint"` a hardcoded literal
  6. `print(response.status_code)`
  7. `print(response.json())`

We embed the JSON data the script manipulates as the fragment of JSON it
actually exercises (strings, arrays, objects), the serializer as Python's
`json.dumps` with its default separators `", "` and `": "` (for the
printable-ASCII strings the script uses, where the only escapes Python would
emit are `\"` and `\\`), a whitespace-tolerant parser standing for
`response.json()` on that fragment, `uuid.uuid4` as CPython implements it
over the 16 random bytes drawn from `os.urandom`, and the script itself as a
function from its random input and the remote endpoint's behaviour to the
ordered trace of its observable effects plus an outcome.
-/

/-! ## JSON values (the fragment the script exercises) -/

mutual

inductive JVal : Type where
  | str (s : List Char)
  | arr (elements : JArr)
  | obj (fields : JObj)

inductive JArr : Type where
  | nil
  | cons (hd : JVal) (tl : JArr)

inductive JObj : Type where
  | nil
  | cons (key : List Char) (value : JVal) (tl : JObj)

end

/-! ## Serialization: `json.dumps` with default settings.

Python's default `json.dumps` uses item separator `", "` and key separator
`": "`, emits no other whitespace, and inside string literals escapes `"` as
`\"` and `\` as `\\` (for printable-ASCII content, the only case the script
and the claims exercise). -/

/-- Escape one character of a JSON string literal the way `json.dumps` does
for printable ASCII: `"` and `\` get a backslash, everything else is copied. -/
def escapeChar (c : Char) : List Char :=
  if c = '"' ∨ c = '\\' then ['\\', c] else [c]

def escapeStr : List Char → List Char
  | [] => []
  | c :: cs => escapeChar c ++ escapeStr cs

/-- A serialized object entry `"key": value`, `value` already serialized. -/
def fieldChars (k : List Char) (d : List Char) : List Char :=
  '"' :: (escapeStr k ++ ('"' :: ':' :: ' ' :: d))

mutual

def dumpsJ : JVal → List Char
  | .str s => '"' :: (escapeStr s ++ ['"'])
  | .arr xs => '[' :: (dumpsArrItems xs ++ [']'])
  | .obj fs => '{' :: (dumpsObjItems fs ++ ['}'])
termination_by structural v => v

def dumpsArrItems : JArr → List Char
  | .nil => []
  | .cons v vs => dumpsJ v ++ dumpsArrTail vs
termination_by structural xs => xs

def dumpsArrTail : JArr → List Char
  | .nil => []
  | .cons v vs => ',' :: ' ' :: (dumpsJ v ++ dumpsArrTail vs)
termination_by structural xs => xs

def dumpsObjItems : JObj → List Char
  | .nil => []
  | .cons k v fs => fieldChars k (dumpsJ v) ++ dumpsObjTail fs
termination_by structural fs => fs

def dumpsObjTail : JObj → List Char
  | .nil => []
  | .cons k v fs => ',' :: ' ' :: (fieldChars k (dumpsJ v) ++ dumpsObjTail fs)
termination_by structural fs => fs

end

/-- `json.dumps` of one object field. -/
def dumpsField (k : List Char) (v : JVal) : List Char := fieldChars k (dumpsJ v)

/-! ## Sizes, used as fuel bounds for the parser -/

mutual

def sizeJ : JVal → Nat
  | .str _ => 1
  | .arr xs => 1 + sizeA xs
  | .obj fs => 1 + sizeO fs
termination_by structural v => v

def sizeA : JArr → Nat
  | .nil => 0
  | .cons v vs => 1 + sizeJ v + sizeA vs
termination_by structural xs => xs

def sizeO : JObj → Nat
  | .nil => 0
  | .cons _ v fs => 1 + sizeJ v + sizeO fs
termination_by structural fs => fs

end

/-! ## Parsing: the model of `response.json()` on the JSON fragment above -/

def skipWs : List Char → List Char
  | [] => []
  | c :: cs => if c = ' ' ∨ c = '\n' ∨ c = '\t' ∨ c = '\r' then skipWs cs else c :: cs

/-- Parse the body of a JSON string literal after its opening quote, undoing
the `\"` and `\\` escapes; returns the content and the input after the
closing quote. -/
def parseStringBody : List Char → Option (List Char × List Char)
  | [] => none
  | c :: cs =>
    if c = '"' then some ([], cs)
    else if c = '\\' then
      match cs with
      | [] => none
      | e :: cs2 =>
        if e = '"' ∨ e = '\\' then
          match parseStringBody cs2 with
          | some (s, r) => some (e :: s, r)
          | none => none
        else none
    else
      match parseStringBody cs with
      | some (s, r) => some (c :: s, r)
      | none => none

mutual

def parseVal : Nat → List Char → Option (JVal × List Char)
  | 0, _ => none
  | fuel + 1, cs =>
    match skipWs cs with
    | [] => none
    | c :: cs1 =>
      if c = '"' then
        match parseStringBody cs1 with
        | some (s, r) => some (.str s, r)
        | none => none
      else if c = '[' then
        if (skipWs cs1).headD 'x' = ']' then some (.arr .nil, (skipWs cs1).tail)
        else
          match parseVal fuel (skipWs cs1) with
          | some (v, r) =>
            match parseArrTail fuel r with
            | some (vs, r2) => some (.arr (.cons v vs), r2)
            | none => none
          | none => none
      else if c = '{' then
        if (skipWs cs1).headD 'x' = '}' then some (.obj .nil, (skipWs cs1).tail)
        else
          match parseFieldKV fuel (skipWs cs1) with
          | some ((k, v), r) =>
            match parseObjTail fuel r with
            | some (fs, r2) => some (.obj (.cons k v fs), r2)
            | none => none
          | none => none
      else none

def parseArrTail : Nat → List Char → Option (JArr × List Char)
  | 0, _ => none
  | fuel + 1, cs =>
    match skipWs cs with
    | [] => none
    | c :: cs1 =>
      if c = ']' then some (.nil, cs1)
      else if c = ',' then
        match parseVal fuel cs1 with
        | some (v, r) =>
          match parseArrTail fuel r with
          | some (vs, r2) => some (.cons v vs, r2)
          | none => none
        | none => none
      else none

def parseFieldKV : Nat → List Char → Option ((List Char × JVal) × List Char)
  | 0, _ => none
  | fuel + 1, cs =>
    match skipWs cs with
    | [] => none
    | c :: cs1 =>
      if c = '"' then
        match parseStringBody cs1 with
        | some (k, r) =>
          match skipWs r with
          | [] => none
          | c2 :: r2 =>
            if c2 = ':' then
              match parseVal fuel r2 with
              | some (v, r3) => some ((k, v), r3)
              | none => none
            else none
        | none => none
      else none

def parseObjTail : Nat → List Char → Option (JObj × List Char)
  | 0, _ => none
  | fuel + 1, cs =>
    match skipWs cs with
    | [] => none
    | c :: cs1 =>
      if c = '}' then some (.nil, cs1)
      else if c = ',' then
        match parseFieldKV fuel cs1 with
        | some ((k, v), r) =>
          match parseObjTail fuel r with
          | some (fs, r2) => some (.cons k v fs, r2)
          | none => none
        | none => none
      else none

end

/-- The model of `response.json()`: parse a complete JSON document, allowing
trailing whitespace, failing (`none`, Python's `json.JSONDecodeError`) on
anything else. The fuel `cs.length + 1` dominates the size of any value a
string of that length can serialize. -/
def parseJson (cs : List Char) : Option JVal :=
  match parseVal (cs.length + 1) cs with
  | some (v, r) => if skipWs r = [] then some v else none
  | none => none

/-! ## `uuid.uuid4`, as CPython implements it

`uuid.uuid4()` is `UUID(bytes=os.urandom(16), version=4)`: it takes 16 random
bytes, overwrites the high nibble of byte 6 with `4` (the version field) and
the top two bits of byte 8 with `10` (the variant field), and `str()` renders
the 16 bytes as 32 lowercase hex digits in groups of 8-4-4-4-12 separated by
dashes. -/

/-- Lowercase hex digit for a value below 16 (`'0'` is 48, `'a'` is 97). -/
def hexDigit (n : Nat) : Char :=
  if n < 10 then Char.ofNat (48 + n) else Char.ofNat (87 + n)

def byteHex (b : Nat) : List Char := [hexDigit (b / 16), hexDigit (b % 16)]

def bytesHex : List Nat → List Char
  | [] => []
  | b :: bs => byteHex b ++ bytesHex bs

/-- The version/variant overwrite `UUID(bytes=..., version=4)` performs, byte
by byte on a 16-byte input: byte 6 becomes `0x40 | (b6 & 0x0f)` and byte 8
becomes `0x80 | (b8 & 0x3f)`. -/
def uuid4bytes (bs : List Nat) : List Nat :=
  bs.take 6 ++ [64 + bs.getD 6 0 % 16, bs.getD 7 0, 128 + bs.getD 8 0 % 64] ++ bs.drop 9

/-- `str(uuid.uuid4())` over the 16 random bytes: masked bytes rendered as
hex in dash-separated groups of 4, 2, 2, 2 and 6 bytes. -/
def uuid4str (bs : List Nat) : List Char :=
  bytesHex ((uuid4bytes bs).take 4) ++
    '-' :: (bytesHex (((uuid4bytes bs).drop 4).take 2) ++
      '-' :: (bytesHex (((uuid4bytes bs).drop 6).take 2) ++
        '-' :: (bytesHex (((uuid4bytes bs).drop 8).take 2) ++
          '-' :: bytesHex ((uuid4bytes bs).drop 10))))

/-! ## Syntactic UUID validity: 8-4-4-4-12 lowercase hex digits -/

def isHexChar (c : Char) : Bool :=
  (48 ≤ c.toNat && c.toNat ≤ 57) || (97 ≤ c.toNat && c.toNat ≤ 102)

/-- Consume exactly `n` hex digits, returning the remainder. -/
def hexRun : Nat → List Char → Option (List Char)
  | 0, cs => some cs
  | _ + 1, [] => none
  | n + 1, c :: cs => if isHexChar c then hexRun n cs else none

def expectDash : Option (List Char) → Option (List Char)
  | some (c :: r) => if c = '-' then some r else none
  | _ => none

def isValidUUID (cs : List Char) : Bool :=
  ((expectDash (hexRun 8 cs)).bind fun r1 =>
    (expectDash (hexRun 4 r1)).bind fun r2 =>
      (expectDash (hexRun 4 r2)).bind fun r3 =>
        (expectDash (hexRun 4 r3)).map fun r4 =>
          decide (hexRun 12 r4 = some [])).getD false

/-! ## The script itself -/

/-- `cluster_uid = str(uuid.uuid4())`, as a function of the 16 random bytes
the invocation draws. -/
def cluster_uid (randomBytes : List Nat) : List Char := uuid4str randomBytes

/-- The `cluster_definition` dict literal of the script: the descriptor's
seven fields, in source order, wrapped under the single `"cluster"` key. -/
def cluster_definition (uid : List Char) : JVal :=
  .obj (.cons "cluster".data (.obj (
    .cons "name".data (.str "clusterName".data) (
    .cons "platformType".data (.str "Docker".data) (
    .cons "agentsList".data (.arr (.cons (.str "agent1".data) .nil)) (
    .cons "domainName".data (.str "example.org".data) (
    .cons "creationTime".data (.str "Feb 08 2023 21:02:10".data) (
    .cons "managedBy".data (.str "".data) (
    .cons "uid".data (.str uid) .nil)))))))) .nil)

/-- `json_data = json.dumps(cluster_definition)`. -/
def json_data (uid : List Char) : List Char := dumpsJ (cluster_definition uid)

/-- `url = "http://your.api.endpoint"` — a hardcoded literal in the source. -/
def url : List Char := "http://your.api.endpoint".data

/-- `requests.post(url, json=cluster_definition)` serializes its `json=`
argument with `json.dumps(..., allow_nan=False)` and default separators,
which on this data is character-for-character the same serialization as
`json_data`. -/
def post_body (uid : List Char) : List Char := dumpsJ (cluster_definition uid)

structure HttpResponse where
  status_code : Nat
  text : List Char

/-- One observable effect of the script, in order: a line printed to stdout
(`print(json_data)`), the POST request being issued, the printed status code
(`print(response.status_code)`), the printed parsed body
(`print(response.json())`). -/
inductive Event : Type where
  | printLine (s : List Char)
  | postReq (u : List Char) (body : List Char)
  | printStatus (n : Nat)
  | printBody (v : JVal)

/-- How the process ends: fell off the end of the script, died with
`requests.exceptions.ConnectionError`, or died with `json.JSONDecodeError`. -/
inductive Outcome : Type where
  | completed
  | connectionError
  | jsonDecodeError

/-- The whole script, as a function of the random bytes `os.urandom` yields
for the UUID and of the remote endpoint's behaviour (`none` = the transport
fails, `some resp` = an HTTP response arrives). Returns the ordered trace of
observable effects and the way the process ends. Uncaught exceptions
truncate the trace exactly where the source line raising them sits. -/
def run (randomBytes : List Nat) (endpoint : List Char → Option HttpResponse) :
    List Event × Outcome :=
  let uid := cluster_uid randomBytes
  let body := json_data uid
  match endpoint body with
  | none =>
    ([.printLine body, .postReq url (post_body uid)], .connectionError)
  | some resp =>
    match parseJson resp.text with
    | none =>
      ([.printLine body, .postReq url (post_body uid), .printStatus resp.status_code],
        .jsonDecodeError)
    | some v =>
      ([.printLine body, .postReq url (post_body uid), .printStatus resp.status_code,
        .printBody v], .completed)

/-- A mock endpoint that echoes the request body back with status 200. -/
def echoEndpoint : List Char → Option HttpResponse :=
  fun body => some ⟨200, body⟩

/-- Field lookup in a JSON object, first match wins (the script's objects
have distinct keys). -/
def lookupField : JObj → List Char → Option JVal
  | .nil, _ => none
  | .cons k v fs, key => if k = key then some v else lookupField fs key

/-- The field named `key` of the object wrapped under the descriptor's
`"cluster"` key. -/
def innerField (v : JVal) (key : List Char) : Option JVal :=
  match v with
  | .obj fs =>
    match lookupField fs "cluster".data with
    | some (.obj inner) => lookupField inner key
    | _ => none
  | _ => none

def removeField : JObj → List Char → JObj
  | .nil, _ => .nil
  | .cons k v fs, key =>
    if k = key then removeField fs key else .cons k v (removeField fs key)

/-- The descriptor with the `uid` field deleted from the wrapped object:
what is left of a run's payload once its per-run identifier is ignored. -/
def stripInnerUid (v : JVal) : JVal :=
  match v with
  | .obj (.cons ck (.obj inner) rest) =>
    .obj (.cons ck (.obj (removeField inner "uid".data)) rest)
  | w => w

example : dumpsJ (.obj (.cons "a".data (.str "b".data) .nil)) = "\x7b\"a\": \"b\"\x7d".data := by
  decide

example : parseJson "\x7b\"a\": \"b\"\x7d".data =
    some (.obj (.cons "a".data (.str "b".data) .nil)) :=
  rfl

example : uuid4str (List.replicate 16 0) = "00000000-0000-4000-8000-000000000000".data := by
  decide

/-! ## Basic facts about sizes and whitespace -/

theorem sizeJ_pos (v : JVal) : 1 ≤ sizeJ v := by
  cases v <;> simp [sizeJ]

theorem skipWs_cons_of_ne (c : Char) (cs : List Char)
    (h : ¬(c = ' ' ∨ c = '\n' ∨ c = '\t' ∨ c = '\r')) : skipWs (c :: cs) = c :: cs := by
  simp [skipWs, h]

/-- Every serialized value starts with `"`, `[` or `{`. -/
theorem dumpsJ_head (v : JVal) :
    ∃ t, dumpsJ v = '"' :: t ∨ dumpsJ v = '[' :: t ∨ dumpsJ v = '{' :: t := by
  cases v with
  | str s => exact ⟨_, .inl rfl⟩
  | arr xs => exact ⟨_, .inr (.inl rfl)⟩
  | obj fs => exact ⟨_, .inr (.inr rfl)⟩

theorem skipWs_dumps (v : JVal) (r : List Char) : skipWs (dumpsJ v ++ r) = dumpsJ v ++ r := by
  obtain ⟨t, h | h | h⟩ := dumpsJ_head v <;> rw [h] <;> simp [skipWs]

theorem dumps_headD_ne_rb (v : JVal) (r : List Char) :
    ¬(dumpsJ v ++ r).head?.getD 'x' = ']' := by
  obtain ⟨t, h | h | h⟩ := dumpsJ_head v <;> rw [h] <;> simp

theorem dumps_headD_ne_cb (v : JVal) (r : List Char) :
    ¬(dumpsJ v ++ r).head?.getD 'x' = '}' := by
  obtain ⟨t, h | h | h⟩ := dumpsJ_head v <;> rw [h] <;> simp

/-! ## String-literal round trip -/

theorem stringBody_roundtrip (s : List Char) :
    ∀ rest, parseStringBody (escapeStr s ++ '"' :: rest) = some (s, rest) := by
  induction s with
  | nil =>
    intro rest
    simp only [escapeStr, List.nil_append]
    rw [parseStringBody.eq_def]
    simp
  | cons c cs ih =>
    intro rest
    by_cases h : c = '"' ∨ c = '\\'
    · simp only [escapeStr, escapeChar, if_pos h, List.cons_append, List.append_assoc]
      rw [parseStringBody.eq_def]
      simp [h, ih]
    · obtain ⟨h1, h2⟩ := not_or.mp h
      simp only [escapeStr, escapeChar, if_neg h, List.cons_append, List.append_assoc,
        List.singleton_append]
      rw [parseStringBody.eq_def]
      simp [h1, h2, ih]

/-! ## The parser ignores a leading blank (the blank `json.dumps` puts after
`,` and `:`) -/

theorem parseVal_ws (fuel : Nat) (cs : List Char) :
    parseVal fuel (' ' :: cs) = parseVal fuel cs := by
  cases fuel with
  | zero => rfl
  | succ fuel =>
    simp only [parseVal]
    rw [show skipWs (' ' :: cs) = skipWs cs by simp [skipWs]]

theorem parseFieldKV_ws (fuel : Nat) (cs : List Char) :
    parseFieldKV fuel (' ' :: cs) = parseFieldKV fuel cs := by
  cases fuel with
  | zero => rfl
  | succ fuel =>
    simp only [parseFieldKV]
    rw [show skipWs (' ' :: cs) = skipWs cs by simp [skipWs]]

/-! ## The round trip: parsing a serialized value gives it back -/

theorem parse_dumps (fuel : Nat) :
    (∀ v rest, sizeJ v ≤ fuel → parseVal fuel (dumpsJ v ++ rest) = some (v, rest)) ∧
    (∀ vs rest, sizeA vs + 1 ≤ fuel →
      parseArrTail fuel (dumpsArrTail vs ++ ']' :: rest) = some (vs, rest)) ∧
    (∀ k v rest, sizeJ v + 1 ≤ fuel →
      parseFieldKV fuel (dumpsField k v ++ rest) = some ((k, v), rest)) ∧
    (∀ fs rest, sizeO fs + 1 ≤ fuel →
      parseObjTail fuel (dumpsObjTail fs ++ '}' :: rest) = some (fs, rest)) := by
  induction fuel with
  | zero =>
    refine ⟨fun v rest h => ?_, fun vs rest h => ?_, fun k v rest h => ?_, fun fs rest h => ?_⟩
    · exact absurd h (by have := sizeJ_pos v; omega)
    · omega
    · omega
    · omega
  | succ fuel IH =>
    obtain ⟨IHP, IHQ, IHS, IHR⟩ := IH
    refine ⟨fun v rest hsz => ?_, fun vs rest hsz => ?_, fun k v rest hsz => ?_,
      fun fs rest hsz => ?_⟩
    · -- values
      cases v with
      | str s =>
        simp only [dumpsJ, List.cons_append, List.append_assoc, List.singleton_append]
        rw [parseVal.eq_2]
        rw [skipWs_cons_of_ne '"' _ (by simp)]
        simp [stringBody_roundtrip]
      | arr xs =>
        cases xs with
        | nil =>
          simp only [dumpsJ, dumpsArrItems, List.nil_append, List.cons_append,
            List.singleton_append]
          rw [parseVal.eq_2]
          simp [skipWs]
        | cons v vs =>
          simp only [sizeJ, sizeA] at hsz
          simp only [dumpsJ, dumpsArrItems, List.cons_append, List.append_assoc,
            List.singleton_append]
          rw [parseVal.eq_2]
          rw [skipWs_cons_of_ne '[' _ (by simp)]
          simp
          rw [skipWs_dumps]
          rw [if_neg (dumps_headD_ne_rb v _)]
          rw [IHP v _ (by omega)]
          simp
          rw [IHQ vs rest (by omega)]
      | obj fs =>
        cases fs with
        | nil =>
          simp only [dumpsJ, dumpsObjItems, List.nil_append, List.cons_append,
            List.singleton_append]
          rw [parseVal.eq_2]
          simp [skipWs]
        | cons k v fs =>
          have hS := IHS k v (dumpsObjTail fs ++ '}' :: rest)
            (by simp only [sizeJ, sizeO] at hsz; omega)
          simp only [dumpsField, fieldChars, List.cons_append, List.append_assoc] at hS
          simp only [sizeJ, sizeO] at hsz
          simp only [dumpsJ, dumpsObjItems, fieldChars, List.cons_append, List.append_assoc,
            List.singleton_append]
          rw [parseVal.eq_2]
          rw [skipWs_cons_of_ne '{' _ (by simp)]
          simp [skipWs]
          rw [hS]
          simp
          rw [IHR fs rest (by omega)]
    · -- array tails
      cases vs with
      | nil =>
        simp only [dumpsArrTail, List.nil_append]
        rw [parseArrTail.eq_2]
        simp [skipWs]
      | cons v vs =>
        simp only [sizeA] at hsz
        simp only [dumpsArrTail, List.cons_append, List.append_assoc]
        rw [parseArrTail.eq_2]
        rw [skipWs_cons_of_ne ',' _ (by simp)]
        simp
        rw [parseVal_ws]
        rw [IHP v _ (by omega)]
        simp
        rw [IHQ vs rest (by omega)]
    · -- an object field
      simp only [dumpsField, fieldChars, List.cons_append, List.append_assoc]
      rw [parseFieldKV.eq_2]
      rw [skipWs_cons_of_ne '"' _ (by simp)]
      simp [stringBody_roundtrip, skipWs]
      rw [parseVal_ws]
      rw [IHP v rest (by omega)]
    · -- object tails
      cases fs with
      | nil =>
        simp only [dumpsObjTail, List.nil_append]
        rw [parseObjTail.eq_2]
        simp [skipWs]
      | cons k v fs =>
        have hS := IHS k v (dumpsObjTail fs ++ '}' :: rest) (by simp only [sizeO] at hsz; omega)
        simp only [dumpsField, fieldChars, List.cons_append, List.append_assoc] at hS
        simp only [sizeO] at hsz
        simp only [dumpsObjTail, fieldChars, List.cons_append, List.append_assoc]
        rw [parseObjTail.eq_2]
        rw [skipWs_cons_of_ne ',' _ (by simp)]
        simp
        rw [parseFieldKV_ws]
        rw [hS]
        simp
        rw [IHR fs rest (by omega)]

/-! ## The serialization is at least as long as the size bound, so
`parseJson`'s fuel suffices -/

theorem size_le_len (n : Nat) :
    (∀ v, sizeJ v ≤ n → sizeJ v ≤ (dumpsJ v).length) ∧
    (∀ vs, sizeA vs ≤ n → sizeA vs ≤ (dumpsArrTail vs).length) ∧
    (∀ fs, sizeO fs ≤ n → sizeO fs ≤ (dumpsObjTail fs).length) := by
  induction n with
  | zero =>
    refine ⟨fun v h => absurd h (by have := sizeJ_pos v; omega), fun vs h => ?_, fun fs h => ?_⟩
    · cases vs with
      | nil => simp [sizeA, dumpsArrTail]
      | cons v vs => exact absurd h (by have h1 := sizeJ_pos v; simp only [sizeA]; omega)
    · cases fs with
      | nil => simp [sizeO, dumpsObjTail]
      | cons k v fs => exact absurd h (by have h1 := sizeJ_pos v; simp only [sizeO]; omega)
  | succ n IH =>
    obtain ⟨IHv, IHa, IHo⟩ := IH
    refine ⟨fun v hsz => ?_, fun vs hsz => ?_, fun fs hsz => ?_⟩
    · cases v with
      | str s => simp [sizeJ, dumpsJ]
      | arr xs =>
        cases xs with
        | nil => simp [sizeJ, sizeA, dumpsJ, dumpsArrItems]
        | cons v vs =>
          simp only [sizeJ, sizeA] at hsz ⊢
          have h1 := IHv v (by have := sizeJ_pos v; omega)
          have h2 := IHa vs (by omega)
          simp only [dumpsJ, dumpsArrItems, List.length_cons, List.length_append]
          omega
      | obj fs =>
        cases fs with
        | nil => simp [sizeJ, sizeO, dumpsJ, dumpsObjItems]
        | cons k v fs =>
          simp only [sizeJ, sizeO] at hsz ⊢
          have h1 := IHv v (by have := sizeJ_pos v; omega)
          have h2 := IHo fs (by omega)
          simp only [dumpsJ, dumpsObjItems, fieldChars, List.length_cons, List.length_append]
          omega
    · cases vs with
      | nil => simp [sizeA]
      | cons v vs =>
        simp only [sizeA] at hsz ⊢
        have h1 := IHv v (by have := sizeJ_pos v; omega)
        have h2 := IHa vs (by omega)
        simp only [dumpsArrTail, List.length_cons, List.length_append]
        omega
    · cases fs with
      | nil => simp [sizeO]
      | cons k v fs =>
        simp only [sizeO] at hsz ⊢
        have h1 := IHv v (by have := sizeJ_pos v; omega)
        have h2 := IHo fs (by omega)
        simp only [dumpsObjTail, fieldChars, List.length_cons, List.length_append]
        omega

theorem sizeJ_le_dumps_len (v : JVal) : sizeJ v ≤ (dumpsJ v).length :=
  (size_le_len (sizeJ v)).1 v le_rfl

/-- `json.loads (json.dumps v) = v` on the modelled fragment. -/
theorem parseJson_dumps (v : JVal) : parseJson (dumpsJ v) = some v := by
  have h := (parse_dumps ((dumpsJ v).length + 1)).1 v []
    (by have := sizeJ_le_dumps_len v; omega)
  rw [List.append_nil] at h
  simp [parseJson, h, skipWs]

/-! ## The UUID string: 32 lowercase hex digits in 8-4-4-4-12 groups -/

theorem hexDigit_isHex (m : Nat) (h : m < 16) : isHexChar (hexDigit m) = true := by
  have : ∀ a : Fin 16, isHexChar (hexDigit a.val) = true := by decide
  exact this ⟨m, h⟩

theorem byteHex_isHex (b : Nat) (hb : b < 256) : ∀ c ∈ byteHex b, isHexChar c = true := by
  intro c hc
  simp only [byteHex, List.mem_cons, List.mem_singleton, List.not_mem_nil] at hc
  rcases hc with h | h | h
  · subst h; exact hexDigit_isHex _ (by omega)
  · subst h; exact hexDigit_isHex _ (by omega)
  · exact absurd h (by simp)

theorem bytesHex_isHex (bs : List Nat) (hb : ∀ b ∈ bs, b < 256) :
    ∀ c ∈ bytesHex bs, isHexChar c = true := by
  induction bs with
  | nil => intro c hc; simp [bytesHex] at hc
  | cons b bs ih =>
    intro c hc
    simp only [bytesHex, List.mem_append] at hc
    rcases hc with h | h
    · exact byteHex_isHex b (hb b (by simp)) c h
    · exact ih (fun x hx => hb x (by simp [hx])) c h

theorem bytesHex_length (bs : List Nat) : (bytesHex bs).length = 2 * bs.length := by
  induction bs with
  | nil => simp [bytesHex]
  | cons b bs ih => simp [bytesHex, byteHex, ih]; omega

theorem hexRun_all (g : List Char) (hg : ∀ c ∈ g, isHexChar c = true) :
    ∀ rest, hexRun g.length (g ++ rest) = some rest := by
  induction g with
  | nil => intro rest; simp [hexRun]
  | cons c g ih =>
    intro rest
    simp only [List.length_cons, List.cons_append]
    rw [hexRun]
    rw [if_pos (hg c (by simp))]
    exact ih (fun x hx => hg x (by simp [hx])) rest

theorem uuid4bytes_length (bs : List Nat) (hl : bs.length = 16) :
    (uuid4bytes bs).length = 16 := by
  simp [uuid4bytes, List.length_append, List.length_take, List.length_drop, hl]

theorem uuid4bytes_lt (bs : List Nat) (hl : bs.length = 16) (hb : ∀ b ∈ bs, b < 256) :
    ∀ b ∈ uuid4bytes bs, b < 256 := by
  intro b hmem
  simp only [uuid4bytes] at hmem
  rcases List.mem_append.mp hmem with h | h
  · rcases List.mem_append.mp h with h2 | h2
    · exact hb b (List.take_subset 6 bs h2)
    · simp only [List.mem_cons, List.not_mem_nil, or_false] at h2
      rcases h2 with rfl | rfl | rfl
      · have := Nat.mod_lt (bs.getD 6 0) (show 0 < 16 by omega); omega
      · have h7 : bs.getD 7 0 ∈ bs := by
          have hlt : (7 : Nat) < bs.length := by omega
          rw [List.getD_eq_getElem?_getD, List.getElem?_eq_getElem hlt]
          simp [List.getElem_mem]
        exact hb _ h7
      · have := Nat.mod_lt (bs.getD 8 0) (show 0 < 64 by omega); omega
  · exact hb b (List.drop_subset 9 bs h)

theorem hexRun_group (g rest : List Char) (n : Nat) (hlen : g.length = n)
    (hg : ∀ c ∈ g, isHexChar c = true) : hexRun n (g ++ rest) = some rest := by
  subst hlen
  exact hexRun_all g hg rest

theorem expectDash_dash (r : List Char) : expectDash (some ('-' :: r)) = some r := by
  simp [expectDash]

/-- `str(uuid.uuid4())` is always syntactically a valid UUID. -/
theorem uuid4str_valid (bs : List Nat) (hl : bs.length = 16) (hb : ∀ b ∈ bs, b < 256) :
    isValidUUID (uuid4str bs) = true := by
  have h16 := uuid4bytes_length bs hl
  have hlt := uuid4bytes_lt bs hl hb
  have hg1 : ∀ c ∈ bytesHex ((uuid4bytes bs).take 4), isHexChar c = true :=
    bytesHex_isHex _ (fun b hm => hlt b (List.take_subset _ _ hm))
  have hg2 : ∀ c ∈ bytesHex (((uuid4bytes bs).drop 4).take 2), isHexChar c = true :=
    bytesHex_isHex _ (fun b hm => hlt b (List.drop_subset _ _ (List.take_subset _ _ hm)))
  have hg3 : ∀ c ∈ bytesHex (((uuid4bytes bs).drop 6).take 2), isHexChar c = true :=
    bytesHex_isHex _ (fun b hm => hlt b (List.drop_subset _ _ (List.take_subset _ _ hm)))
  have hg4 : ∀ c ∈ bytesHex (((uuid4bytes bs).drop 8).take 2), isHexChar c = true :=
    bytesHex_isHex _ (fun b hm => hlt b (List.drop_subset _ _ (List.take_subset _ _ hm)))
  have hg5 : ∀ c ∈ bytesHex ((uuid4bytes bs).drop 10), isHexChar c = true :=
    bytesHex_isHex _ (fun b hm => hlt b (List.drop_subset _ _ hm))
  have hl1 : (bytesHex ((uuid4bytes bs).take 4)).length = 8 := by
    rw [bytesHex_length]; simp [List.length_take, h16]
  have hl2 : (bytesHex (((uuid4bytes bs).drop 4).take 2)).length = 4 := by
    rw [bytesHex_length]; simp [List.length_take, List.length_drop, h16]
  have hl3 : (bytesHex (((uuid4bytes bs).drop 6).take 2)).length = 4 := by
    rw [bytesHex_length]; simp [List.length_take, List.length_drop, h16]
  have hl4 : (bytesHex (((uuid4bytes bs).drop 8).take 2)).length = 4 := by
    rw [bytesHex_length]; simp [List.length_take, List.length_drop, h16]
  have hl5 : (bytesHex ((uuid4bytes bs).drop 10)).length = 12 := by
    rw [bytesHex_length]; simp [List.length_drop, h16]
  have e5 : hexRun 12 (bytesHex ((uuid4bytes bs).drop 10)) = some [] := by
    have e := hexRun_group _ [] 12 hl5 hg5
    simpa using e
  simp only [uuid4str, isValidUUID]
  rw [hexRun_group _ _ 8 hl1 hg1, expectDash_dash]
  simp only [Option.some_bind]
  rw [hexRun_group _ _ 4 hl2 hg2, expectDash_dash]
  simp only [Option.some_bind]
  rw [hexRun_group _ _ 4 hl3 hg3, expectDash_dash]
  simp only [Option.some_bind]
  rw [hexRun_group _ _ 4 hl4 hg4, expectDash_dash]
  simp [e5]

/-! ## Injectivity of the hex rendering on the masked bytes -/

theorem hexDigit_inj (a b : Nat) (ha : a < 16) (hb : b < 16) (h : hexDigit a = hexDigit b) :
    a = b := by
  have key : ∀ x y : Fin 16, hexDigit x.val = hexDigit y.val → x = y := by decide
  exact congrArg Fin.val (key ⟨a, ha⟩ ⟨b, hb⟩ h)

theorem byteHex_inj (a b : Nat) (ha : a < 256) (hb : b < 256) (h : byteHex a = byteHex b) :
    a = b := by
  simp only [byteHex, List.cons.injEq, and_true] at h
  obtain ⟨h1, h2⟩ := h
  have d1 := hexDigit_inj _ _ (by omega) (by omega) h1
  have d2 := hexDigit_inj _ _ (Nat.mod_lt _ (by omega)) (Nat.mod_lt _ (by omega)) h2
  omega

theorem bytesHex_inj : ∀ xs ys : List Nat, (∀ b ∈ xs, b < 256) → (∀ b ∈ ys, b < 256) →
    xs.length = ys.length → bytesHex xs = bytesHex ys → xs = ys := by
  intro xs
  induction xs with
  | nil =>
    intro ys _ _ hlen _
    cases ys with
    | nil => rfl
    | cons y ys => simp at hlen
  | cons x xs ih =>
    intro ys hx hy hlen heq
    cases ys with
    | nil => simp at hlen
    | cons y ys =>
      simp only [bytesHex] at heq
      have hsplit := List.append_inj heq (by simp [byteHex])
      have hx0 := byteHex_inj x y (hx x (by simp)) (hy y (by simp)) hsplit.1
      have htl := ih ys (fun b hb2 => hx b (by simp [hb2])) (fun b hb2 => hy b (by simp [hb2]))
        (by simpa using hlen) hsplit.2
      rw [hx0, htl]

theorem bytesHex_append (xs ys : List Nat) :
    bytesHex (xs ++ ys) = bytesHex xs ++ bytesHex ys := by
  induction xs with
  | nil => simp [bytesHex]
  | cons x xs ih => simp [bytesHex, ih, List.append_assoc]

theorem bytesHex_split16 (l : List Nat) :
    bytesHex l = bytesHex (l.take 4) ++ (bytesHex ((l.drop 4).take 2) ++
      (bytesHex ((l.drop 6).take 2) ++ (bytesHex ((l.drop 8).take 2) ++
        bytesHex (l.drop 10)))) := by
  have d6 : (l.drop 4).drop 2 = l.drop 6 := by simp [List.drop_drop]
  have d8 : (l.drop 6).drop 2 = l.drop 8 := by simp [List.drop_drop]
  have d10 : (l.drop 8).drop 2 = l.drop 10 := by simp [List.drop_drop]
  conv_lhs => rw [← List.take_append_drop 4 l, bytesHex_append,
    ← List.take_append_drop 2 (l.drop 4), bytesHex_append, d6,
    ← List.take_append_drop 2 (l.drop 6), bytesHex_append, d8,
    ← List.take_append_drop 2 (l.drop 8), bytesHex_append, d10]

/-- Two invocations whose masked byte sequences differ render to different
UUID strings (contrapositive form: equal strings force equal masked bytes). -/
theorem uuid4str_eq_imp (bs bs' : List Nat) (hl : bs.length = 16) (hl' : bs'.length = 16)
    (hb : ∀ b ∈ bs, b < 256) (hb' : ∀ b ∈ bs', b < 256)
    (heq : uuid4str bs = uuid4str bs') : uuid4bytes bs = uuid4bytes bs' := by
  have h16 := uuid4bytes_length bs hl
  have h16' := uuid4bytes_length bs' hl'
  have hlt := uuid4bytes_lt bs hl hb
  have hlt' := uuid4bytes_lt bs' hl' hb'
  simp only [uuid4str] at heq
  obtain ⟨e1, heq⟩ := List.append_inj heq
    (by rw [bytesHex_length, bytesHex_length]; simp [List.length_take, h16, h16'])
  rw [List.cons.injEq] at heq
  obtain ⟨-, heq⟩ := heq
  obtain ⟨e2, heq⟩ := List.append_inj heq
    (by rw [bytesHex_length, bytesHex_length]
        simp [List.length_take, List.length_drop, h16, h16'])
  rw [List.cons.injEq] at heq
  obtain ⟨-, heq⟩ := heq
  obtain ⟨e3, heq⟩ := List.append_inj heq
    (by rw [bytesHex_length, bytesHex_length]
        simp [List.length_take, List.length_drop, h16, h16'])
  rw [List.cons.injEq] at heq
  obtain ⟨-, heq⟩ := heq
  obtain ⟨e4, heq⟩ := List.append_inj heq
    (by rw [bytesHex_length, bytesHex_length]
        simp [List.length_take, List.length_drop, h16, h16'])
  rw [List.cons.injEq] at heq
  obtain ⟨-, e5⟩ := heq
  have hfull : bytesHex (uuid4bytes bs) = bytesHex (uuid4bytes bs') := by
    rw [bytesHex_split16 (uuid4bytes bs), bytesHex_split16 (uuid4bytes bs'),
      e1, e2, e3, e4, e5]
  exact bytesHex_inj _ _ hlt hlt' (by rw [h16, h16']) hfull

/-! ## The claims -/

/-- C1: the HTTP POST body is the serialized ClusterDescriptor wrapped under a
single top-level `cluster` key; parsed back, the wrapped object holds exactly
the seven fields name, platformType, agentsList (one element), domainName,
creationTime (all fixed placeholder literals), managedBy (empty string) and
uid (the freshly generated identifier of the invocation). -/
theorem C1_post_body_wraps_descriptor :
    ∀ (bytes : List Nat) (ep : List Char → Option HttpResponse),
      Event.postReq url (post_body (cluster_uid bytes)) ∈ (run bytes ep).1 ∧
      parseJson (post_body (cluster_uid bytes)) =
        some (.obj (.cons "cluster".data (.obj (
          .cons "name".data (.str "clusterName".data) (
          .cons "platformType".data (.str "Docker".data) (
          .cons "agentsList".data (.arr (.cons (.str "agent1".data) .nil)) (
          .cons "domainName".data (.str "example.org".data) (
          .cons "creationTime".data (.str "Feb 08 2023 21:02:10".data) (
          .cons "managedBy".data (.str "".data) (
          .cons "uid".data (.str (cluster_uid bytes)) .nil)))))))) .nil)) := by
  intro bytes ep
  constructor
  · simp only [run]
    rcases hep : ep (json_data (cluster_uid bytes)) with _ | resp
    · simp [hep]
    · rcases hp : parseJson resp.text with _ | v <;> simp [hep, hp]
  · show parseJson (dumpsJ (cluster_definition (cluster_uid bytes))) = _
    rw [parseJson_dumps]
    rfl

/-- C2 counterexample: the endpoint URL is not a configurable input — no
choice of random input or endpoint behaviour makes the script post anywhere
other than the hardcoded literal `http://your.api.endpoint`. -/
theorem C2_counterexample :
    ¬ ∃ (bytes : List Nat) (ep : List Char → Option HttpResponse) (u b : List Char),
        Event.postReq u b ∈ (run bytes ep).1 ∧ u ≠ "http://your.api.endpoint".data := by
  rintro ⟨bytes, ep, u, b, hmem, hne⟩
  apply hne
  simp only [run] at hmem
  rcases hep : ep (json_data (cluster_uid bytes)) with _ | resp
  · rw [hep] at hmem
    simp [url] at hmem
    exact hmem.1
  · rw [hep] at hmem
    rcases hp : parseJson resp.text with _ | v
    · simp [hp, url] at hmem
      exact hmem.1
    · simp [hp, url] at hmem
      exact hmem.1

/-- C2 amended: the endpoint URL is a hardcoded module-level constant
`http://your.api.endpoint`, not a parameter; every POST the script issues
goes to that fixed URL with the serialized descriptor as body. -/
theorem C2_url_hardcoded :
    ∀ (bytes : List Nat) (ep : List Char → Option HttpResponse) (u b : List Char),
      Event.postReq u b ∈ (run bytes ep).1 →
      u = "http://your.api.endpoint".data ∧ b = post_body (cluster_uid bytes) := by
  intro bytes ep u b hmem
  simp only [run] at hmem
  rcases hep : ep (json_data (cluster_uid bytes)) with _ | resp
  · rw [hep] at hmem
    simp [url] at hmem
    exact hmem
  · rw [hep] at hmem
    rcases hp : parseJson resp.text with _ | v
    · simp [hp, url] at hmem
      exact hmem
    · simp [hp, url] at hmem
      exact hmem

/-- C2 witness: a concrete run whose membership hypothesis holds. -/
theorem C2_url_hardcoded_witness :
    Event.postReq url (post_body (cluster_uid (List.replicate 16 0))) ∈
      (run (List.replicate 16 0) (fun _ => none)).1 ∧
    (url = "http://your.api.endpoint".data ∧
      post_body (cluster_uid (List.replicate 16 0)) =
        post_body (cluster_uid (List.replicate 16 0))) := by
  have hmem : Event.postReq url (post_body (cluster_uid (List.replicate 16 0))) ∈
      (run (List.replicate 16 0) (fun _ => none)).1 := by
    simp [run]
  exact ⟨hmem, C2_url_hardcoded _ _ _ _ hmem⟩

/-- C3: against an endpoint that echoes the request body back with HTTP
status 200, the run prints the request JSON, posts, prints status code 200
and then prints a parsed response body equal to the original request payload
of that run, including that run's generated uid, and completes. -/
theorem C3_echo_roundtrip :
    ∀ bytes : List Nat,
      run bytes echoEndpoint =
        ([.printLine (json_data (cluster_uid bytes)),
          .postReq url (post_body (cluster_uid bytes)),
          .printStatus 200,
          .printBody (cluster_definition (cluster_uid bytes))], .completed) := by
  intro bytes
  have hp : parseJson (json_data (cluster_uid bytes)) =
      some (cluster_definition (cluster_uid bytes)) := by
    simp only [json_data]
    exact parseJson_dumps _
  simp [run, echoEndpoint, hp]

/-- C4: parsing the serialized request body back yields exactly the
constructed descriptor; across two runs everything except the `uid` field is
one and the same value, the `uid` field holds each run's generated
identifier, and the parsed-back `uid` fields differ exactly when the two
runs' generated identifiers differ. -/
theorem C4_roundtrip_only_uid_varies :
    ∀ b1 b2 : List Nat,
      parseJson (json_data (cluster_uid b1)) = some (cluster_definition (cluster_uid b1)) ∧
      parseJson (json_data (cluster_uid b2)) = some (cluster_definition (cluster_uid b2)) ∧
      stripInnerUid (cluster_definition (cluster_uid b1)) =
        stripInnerUid (cluster_definition (cluster_uid b2)) ∧
      innerField (cluster_definition (cluster_uid b1)) "uid".data =
        some (.str (cluster_uid b1)) ∧
      innerField (cluster_definition (cluster_uid b2)) "uid".data =
        some (.str (cluster_uid b2)) ∧
      (cluster_uid b1 ≠ cluster_uid b2 ↔
        innerField (cluster_definition (cluster_uid b1)) "uid".data ≠
          innerField (cluster_definition (cluster_uid b2)) "uid".data) := by
  intro b1 b2
  have e1 : innerField (cluster_definition (cluster_uid b1)) "uid".data =
      some (.str (cluster_uid b1)) := rfl
  have e2 : innerField (cluster_definition (cluster_uid b2)) "uid".data =
      some (.str (cluster_uid b2)) := rfl
  refine ⟨by simp only [json_data]; exact parseJson_dumps _,
    by simp only [json_data]; exact parseJson_dumps _, rfl, e1, e2, ?_⟩
  rw [e1, e2]
  simp

/-- C5 counterexample: two distinct 16-byte random outputs that differ only
in the high nibble of byte 6 — bits `uuid.uuid4` overwrites with the version
field — produce the very same uid string, so differing random outputs do not
always give differing uids. -/
theorem C5_counterexample :
    ([0, 0, 0, 0, 0, 0, 16, 0, 0, 0, 0, 0, 0, 0, 0, 0] : List Nat) ≠
      [0, 0, 0, 0, 0, 0, 0, 0, 0, 0, 0, 0, 0, 0, 0, 0] ∧
    ([0, 0, 0, 0, 0, 0, 16, 0, 0, 0, 0, 0, 0, 0, 0, 0] : List Nat).length = 16 ∧
    ([0, 0, 0, 0, 0, 0, 0, 0, 0, 0, 0, 0, 0, 0, 0, 0] : List Nat).length = 16 ∧
    (∀ b ∈ ([0, 0, 0, 0, 0, 0, 16, 0, 0, 0, 0, 0, 0, 0, 0, 0] : List Nat), b < 256) ∧
    (∀ b ∈ ([0, 0, 0, 0, 0, 0, 0, 0, 0, 0, 0, 0, 0, 0, 0, 0] : List Nat), b < 256) ∧
    cluster_uid [0, 0, 0, 0, 0, 0, 16, 0, 0, 0, 0, 0, 0, 0, 0, 0] =
      cluster_uid [0, 0, 0, 0, 0, 0, 0, 0, 0, 0, 0, 0, 0, 0, 0, 0] := by
  refine ⟨by decide, by decide, by decide, by decide, by decide, ?_⟩
  decide

/-- C5 amended: the uid is a syntactically valid UUID, it is the rendering of
this invocation's random bytes and is the uid printed in the request payload,
and two invocations' uids differ whenever their random outputs differ in any
bit that `uuid.uuid4` does not overwrite with the version/variant fields
(i.e. whenever the masked byte sequences differ); outputs differing only in
the six overwritten bits yield equal uids. -/
theorem C5_uuid_fresh_and_valid :
    ∀ bs : List Nat, bs.length = 16 → (∀ b ∈ bs, b < 256) →
      isValidUUID (cluster_uid bs) = true ∧
      (∀ ep, ((run bs ep).1).head? =
        some (.printLine (dumpsJ (cluster_definition (uuid4str bs))))) ∧
      (∀ bs' : List Nat, bs'.length = 16 → (∀ b ∈ bs', b < 256) →
        uuid4bytes bs ≠ uuid4bytes bs' → cluster_uid bs ≠ cluster_uid bs') := by
  intro bs hl hb
  refine ⟨uuid4str_valid bs hl hb, ?_, ?_⟩
  · intro ep
    simp only [run]
    rcases hep : ep (json_data (cluster_uid bs)) with _ | resp
    · simp [hep, json_data, cluster_uid]
    · rcases hp : parseJson resp.text with _ | v <;> simp [hep, hp, json_data, cluster_uid]
  · intro bs' hl' hb' hdiff heq
    exact hdiff (uuid4str_eq_imp bs bs' hl hl' hb hb' heq)

/-- C5 witness: the amended theorem applied to the all-zero random input. -/
theorem C5_uuid_fresh_and_valid_witness :
    ((List.replicate 16 (0 : Nat)).length = 16 ∧
      (∀ b ∈ List.replicate 16 (0 : Nat), b < 256)) ∧
    (isValidUUID (cluster_uid (List.replicate 16 0)) = true ∧
      (∀ ep, ((run (List.replicate 16 0) ep).1).head? =
        some (.printLine (dumpsJ (cluster_definition (uuid4str (List.replicate 16 0)))))) ∧
      (∀ bs' : List Nat, bs'.length = 16 → (∀ b ∈ bs', b < 256) →
        uuid4bytes (List.replicate 16 0) ≠ uuid4bytes bs' →
          cluster_uid (List.replicate 16 0) ≠ cluster_uid bs')) :=
  ⟨⟨by decide, by decide⟩, C5_uuid_fresh_and_valid _ (by decide) (by decide)⟩

/-- C6: in every run the serialized request JSON is printed strictly before
the POST is issued, and the status code followed by the parsed body are
printed only after a reply arrives — the trace is exactly the print, then the
post, then whatever the reply allows. -/
theorem C6_output_ordering :
    ∀ (bytes : List Nat) (ep : List Char → Option HttpResponse),
      (run bytes ep).1 =
        Event.printLine (json_data (cluster_uid bytes)) ::
          Event.postReq url (post_body (cluster_uid bytes)) ::
            (match ep (json_data (cluster_uid bytes)) with
             | none => []
             | some resp =>
               Event.printStatus resp.status_code ::
                 (match parseJson resp.text with
                  | none => []
                  | some v => [Event.printBody v])) := by
  intro bytes ep
  simp only [run]
  rcases hep : ep (json_data (cluster_uid bytes)) with _ | resp
  · simp [hep]
  · rcases hp : parseJson resp.text with _ | v <;> simp [hep, hp]

/-- C7: when the endpoint is unreachable, the run dies with a transport
error; the trace holds the printed request JSON and the attempted POST only —
no status code and no body are ever printed. -/
theorem C7_unreachable_no_status :
    ∀ (bytes : List Nat) (ep : List Char → Option HttpResponse),
      ep (json_data (cluster_uid bytes)) = none →
      run bytes ep = ([.printLine (json_data (cluster_uid bytes)),
        .postReq url (post_body (cluster_uid bytes))], .connectionError) := by
  intro bytes ep h
  simp [run, h]

/-- C7 witness: the always-unreachable endpoint. -/
theorem C7_unreachable_no_status_witness :
    ((fun _ : List Char => (none : Option HttpResponse))
        (json_data (cluster_uid (List.replicate 16 0))) = none) ∧
    run (List.replicate 16 0) (fun _ => none) =
      ([.printLine (json_data (cluster_uid (List.replicate 16 0))),
        .postReq url (post_body (cluster_uid (List.replicate 16 0)))],
        .connectionError) :=
  ⟨rfl, C7_unreachable_no_status _ _ rfl⟩

/-- C8: when the endpoint replies with a body that is not valid JSON —
whatever the status code — the run dies at the response-parsing step with the
uncaught decode error; nothing is recovered, retried or translated, and no
parsed body is ever printed. -/
theorem C8_nonjson_uncaught_parse_error :
    ∀ (bytes : List Nat) (ep : List Char → Option HttpResponse) (resp : HttpResponse),
      ep (json_data (cluster_uid bytes)) = some resp →
      parseJson resp.text = none →
      (run bytes ep).2 = .jsonDecodeError ∧
      ∀ v, Event.printBody v ∉ (run bytes ep).1 := by
  intro bytes ep resp h hp
  refine ⟨by simp [run, h, hp], ?_⟩
  intro v
  simp [run, h, hp]

/-- C8 witness: an endpoint answering 200 with a non-JSON body. -/
theorem C8_nonjson_uncaught_parse_error_witness :
    ((fun _ : List Char => some (⟨200, "not json".data⟩ : HttpResponse))
        (json_data (cluster_uid (List.replicate 16 0))) =
      some (⟨200, "not json".data⟩ : HttpResponse)) ∧
    parseJson (HttpResponse.text ⟨200, "not json".data⟩) = none ∧
    ((run (List.replicate 16 0)
        (fun _ => some (⟨200, "not json".data⟩ : HttpResponse))).2 = .jsonDecodeError ∧
      ∀ v, Event.printBody v ∉
        (run (List.replicate 16 0)
          (fun _ => some (⟨200, "not json".data⟩ : HttpResponse))).1) :=
  ⟨rfl, rfl, C8_nonjson_uncaught_parse_error _ _ _ rfl rfl⟩

/-- C9: on a non-JSON reply the status code has already been printed before
the parse failure kills the process — the trace is the request JSON, the
POST, and the status code, one event more than the unreachable-endpoint
trace and one short of the successful one. -/
theorem C9_status_printed_before_parse_failure :
    ∀ (bytes : List Nat) (ep : List Char → Option HttpResponse) (resp : HttpResponse),
      ep (json_data (cluster_uid bytes)) = some resp →
      parseJson resp.text = none →
      (run bytes ep).1 = [.printLine (json_data (cluster_uid bytes)),
        .postReq url (post_body (cluster_uid bytes)),
        .printStatus resp.status_code] := by
  intro bytes ep resp h hp
  simp [run, h, hp]

/-- C9 witness: an endpoint answering 500 with an HTML error page. -/
theorem C9_status_printed_before_parse_failure_witness :
    ((fun _ : List Char => some (⟨500, "<html>error</html>".data⟩ : HttpResponse))
        (json_data (cluster_uid (List.replicate 16 0))) =
      some (⟨500, "<html>error</html>".data⟩ : HttpResponse)) ∧
    parseJson (HttpResponse.text ⟨500, "<html>error</html>".data⟩) = none ∧
    (run (List.replicate 16 0)
        (fun _ => some (⟨500, "<html>error</html>".data⟩ : HttpResponse))).1 =
      [.printLine (json_data (cluster_uid (List.replicate 16 0))),
        .postReq url (post_body (cluster_uid (List.replicate 16 0))),
        .printStatus 500] :=
  ⟨rfl, rfl, C9_status_printed_before_parse_failure (List.replicate 16 0)
    (fun _ => some (⟨500, "<html>error</html>".data⟩ : HttpResponse))
    (⟨500, "<html>error</html>".data⟩ : HttpResponse) rfl rfl⟩

/-- C10: the JSON string printed to stdout and the body `requests` transmits
are the same serialization of the same dictionary — the first two trace
events carry one and the same string, it parses back to the descriptor, and
the descriptor's uid is the one generated this run; nothing is rebuilt or
mutated between printing and sending. -/
theorem C10_printed_equals_posted :
    ∀ (bytes : List Nat) (ep : List Char → Option HttpResponse),
      json_data (cluster_uid bytes) = post_body (cluster_uid bytes) ∧
      (run bytes ep).1.take 2 = [.printLine (json_data (cluster_uid bytes)),
        .postReq url (json_data (cluster_uid bytes))] ∧
      parseJson (json_data (cluster_uid bytes)) =
        some (cluster_definition (cluster_uid bytes)) ∧
      innerField (cluster_definition (cluster_uid bytes)) "uid".data =
        some (.str (cluster_uid bytes)) := by
  intro bytes ep
  refine ⟨rfl, ?_, by simp only [json_data]; exact parseJson_dumps _, rfl⟩
  simp only [run]
  rcases hep : ep (json_data (cluster_uid bytes)) with _ | resp
  · simp [hep, post_body, json_data]
  · rcases hp : parseJson resp.text with _ | v <;> simp [hep, hp, post_body, json_data]
